import Mathlib

/-!
Shallow embedding of the installment-ledger core of the paytrack backend.

Money is modelled as `ℚ`: Python `Decimal` addition, subtraction and
multiplication at the magnitudes used here are exact, and the two places a
quotient is rounded (`round(x, 2)` and the two-decimal database column) are
modelled by an explicit round-half-even-to-cents function.  Calendar dates are
a `(year, month, day)` structure with the `dateutil.relativedelta` month
arithmetic (day clamped to the target month's length) and `timedelta` day
arithmetic made explicit.
-/

set_option linter.all false

namespace PayTrack

attribute [local semireducible] Rat.add Rat.sub Rat.mul Rat.inv Rat.ofScientific

/-- Calendar date, mirroring Python `datetime.date`. -/
structure Date where
  year : Int
  month : Int
  day : Int
deriving DecidableEq

/-- Gregorian leap-year test. -/
def isLeap (y : Int) : Bool :=
  y % 4 = 0 && (y % 100 ≠ 0 || y % 400 = 0)

/-- Number of days in a month of a given year. -/
def daysInMonth (y m : Int) : Int :=
  if m = 2 then (if isLeap y then 29 else 28)
  else if m = 4 || m = 6 || m = 9 || m = 11 then 30
  else 31

/-- `dateutil.relativedelta(months=n)`: shift the month index and clamp the
day to the length of the target month (Jan 31 + 1 month = Feb 28/29). -/
def addMonths (n : Int) (d : Date) : Date :=
  let idx := d.year * 12 + (d.month - 1) + n
  let y := idx.fdiv 12
  let m := idx.emod 12 + 1
  ⟨y, m, min d.day (daysInMonth y m)⟩

/-- Successor day, rolling over month and year ends. -/
def nextDay (d : Date) : Date :=
  if d.day < daysInMonth d.year d.month then ⟨d.year, d.month, d.day + 1⟩
  else if d.month < 12 then ⟨d.year, d.month + 1, 1⟩
  else ⟨d.year + 1, 1, 1⟩

/-- Predecessor day, rolling over month and year starts. -/
def prevDay (d : Date) : Date :=
  if 1 < d.day then ⟨d.year, d.month, d.day - 1⟩
  else if 1 < d.month then ⟨d.year, d.month - 1, daysInMonth d.year (d.month - 1)⟩
  else ⟨d.year - 1, 12, 31⟩

/-- Python `date + timedelta(days=k)` (also negative `k`). -/
def addDays (k : Int) (d : Date) : Date :=
  if 0 ≤ k then nextDay^[k.toNat] d else prevDay^[(-k).toNat] d

/-- Strict lexicographic comparison of dates, as Python compares `date`s. -/
def dateLt (a b : Date) : Bool :=
  a.year < b.year ||
    (a.year = b.year && (a.month < b.month ||
      (a.month = b.month && a.day < b.day)))

/-- Round a rational to the nearest integer, ties to even: the rounding used
by Python `round(Decimal, 2)` (ROUND_HALF_EVEN) and by the two-decimal
database columns, expressed in units of the last kept digit. -/
def rheInt (x : ℚ) : Int :=
  let f := ⌊x⌋
  let frac := x - f
  if frac < 1/2 then f
  else if 1/2 < frac then f + 1
  else if f % 2 = 0 then f else f + 1

/-- Round a currency amount to two decimal places, half to even. -/
def roundCents (x : ℚ) : ℚ :=
  (rheInt (100 * x) : ℚ) / 100

theorem abs_rheInt_sub_le (x : ℚ) : |(rheInt x : ℚ) - x| ≤ 1/2 := by
  have hfl : (⌊x⌋ : ℚ) ≤ x := Int.floor_le x
  have hfl' : x - ⌊x⌋ < 1 := by
    have := Int.lt_floor_add_one x
    linarith
  unfold rheInt
  by_cases h1 : x - (⌊x⌋ : ℚ) < 1/2
  · simp only [h1, if_true]
    rw [abs_le]
    constructor <;> linarith
  · simp only [h1, if_false]
    by_cases h2 : (1:ℚ)/2 < x - (⌊x⌋ : ℚ)
    · simp only [h2, if_true]
      push_cast
      rw [abs_le]
      constructor <;> linarith
    · simp only [h2, if_false]
      have heq : x - (⌊x⌋ : ℚ) = 1/2 := le_antisymm (not_lt.mp h2) (not_lt.mp h1)
      by_cases h3 : ⌊x⌋ % 2 = 0
      · simp only [h3, if_true]
        rw [abs_le]
        constructor <;> linarith
      · simp only [h3, if_false]
        push_cast
        rw [abs_le]
        constructor <;> linarith

/-- `InstallmentPlan.STATUS_CHOICES` (apps/core/models.py). -/
inductive PlanStatus
  | pendingApproval
  | active
  | completed
  | overdue
  | defaulted
  | cancelled
deriving DecidableEq

/-- `InstallmentPayment.STATUS_CHOICES` (apps/core/models.py). -/
inductive SlotStatus
  | pending
  | verified
  | rejected
deriving DecidableEq

/-- `InstallmentPlan.FREQUENCY_CHOICES`. -/
inductive Frequency
  | weekly
  | biweekly
  | monthly
deriving DecidableEq

/-- Ledger-relevant fields of `InstallmentPlan` (apps/core/models.py).
Media and bookkeeping columns (images, timestamps, foreign keys) carry no
ledger logic and are omitted. -/
structure InstallmentPlan where
  total_amount : ℚ
  down_payment : ℚ
  remaining_amount : ℚ
  interest_rate : ℚ
  number_of_installments : Int
  installment_amount : ℚ
  frequency : Frequency
  start_date : Date
  end_date : Date
  next_due_date : Option Date
  status : PlanStatus
  installments_paid : Int
deriving DecidableEq

/-- Ledger-relevant fields of `InstallmentPayment` (apps/core/models.py): one
pre-generated schedule slot of a plan.  `verified_by`, `verified_at` and
`payment_date` are modelled as opaque integer identifiers/timestamps. -/
structure InstallmentPayment where
  installment_number : Int
  amount : ℚ
  payment_method : String
  due_date : Date
  payment_date : Option Int
  payment_proof : Option String
  transaction_id : String
  status : SlotStatus
  verified_by : Option Int
  verified_at : Option Int
  notes : String
  rejection_reason : Option String
deriving DecidableEq

/-- `InstallmentPlan.save` (apps/core/models.py lines 166-175).  Python
truthiness: `not self.remaining_amount` holds for `Decimal(0)` (of any sign
representation) as well as for an unset value, so a plan saved with
`remaining_amount == 0` has it recomputed as `total_amount - down_payment`;
likewise for `installment_amount`. -/
def InstallmentPlan.hookSave (p : InstallmentPlan) : InstallmentPlan :=
  let p :=
    if p.remaining_amount = 0 then
      { p with remaining_amount := p.total_amount - p.down_payment }
    else p
  if p.installment_amount = 0 ∧ 0 < p.number_of_installments then
    { p with installment_amount := p.remaining_amount / (p.number_of_installments : ℚ) }
  else p

/-- `InstallmentPlan.is_overdue` property: next due date strictly in the past
while the plan is `active`. -/
def InstallmentPlan.is_overdue (today : Date) (p : InstallmentPlan) : Bool :=
  match p.next_due_date with
  | some nd => if p.status = PlanStatus.active then dateLt nd today else false
  | none => false

/-- `InstallmentPlan.update_status` (apps/core/models.py lines 193-199):
completed when the balance is non-positive, else overdue when past due, then
`save()` runs the recompute hook. -/
def InstallmentPlan.update_status (today : Date) (p : InstallmentPlan) : InstallmentPlan :=
  let p :=
    if p.remaining_amount ≤ 0 then { p with status := PlanStatus.completed }
    else if p.is_overdue today then { p with status := PlanStatus.overdue }
    else p
  p.hookSave

/-- Combined persistent state of one scheduled-mode plan and its slots. -/
structure PlanState where
  plan : InstallmentPlan
  slots : List InstallmentPayment
deriving DecidableEq

/-- Due date of the earliest slot among those with status `pending`
(`plan.payments.filter(status='pending').order_by('due_date').first()`). -/
def earliestPendingDue (slots : List InstallmentPayment) : Option Date :=
  (slots.filter (fun s => s.status = SlotStatus.pending)).foldl
    (fun acc s =>
      match acc with
      | none => some s.due_date
      | some d => if dateLt s.due_date d then some s.due_date else some d)
    none

/-- `InstallmentPayment.verify_payment` (apps/core/models.py lines 275-295):
mark slot `i` verified, decrement the plan balance by the slot amount,
advance the installment counter, recompute the next due date from the slots
still pending, then run `update_status` (which ends in the `save` hook). -/
def verify_payment (st : PlanState) (i : Nat) (s : InstallmentPayment)
    (verifier now : Int) (today : Date) : PlanState :=
  let s' := { s with
    status := SlotStatus.verified
    verified_by := some verifier
    verified_at := some now
    payment_date := some now }
  let slots' := st.slots.set i s'
  let plan := { st.plan with
    remaining_amount := st.plan.remaining_amount - s.amount
    installments_paid := st.plan.installments_paid + 1 }
  let plan := { plan with next_due_date := earliestPendingDue slots' }
  { plan := plan.update_status today, slots := slots' }

/-- `InstallmentPayment.reject_payment` (apps/core/models.py lines 297-301):
status becomes `rejected` with the reason; the plan is untouched. -/
def rejectSlot (s : InstallmentPayment) (reason : String) : InstallmentPayment :=
  { s with status := SlotStatus.rejected, rejection_reason := some reason }

def reject_payment (st : PlanState) (i : Nat) (s : InstallmentPayment)
    (reason : String) : PlanState :=
  { st with slots := st.slots.set i (rejectSlot s reason) }

/-- Error taxonomy surfaced by the view layer. -/
inductive LedgerError
  | notFound
  | alreadyVerified
  | validationError
  | invalidAmount
  | zeroDivision
deriving DecidableEq

/-- The field updates a proof submission applies to a slot. -/
def submitSlot (s : InstallmentPayment) (proof method txid snotes : String) :
    InstallmentPayment :=
  { s with
    payment_proof := some proof
    payment_method := method
    transaction_id := txid
    notes := snotes
    status := SlotStatus.pending }

/-- `InstallmentPaymentSubmitView.post` (apps/core/views/installment_views.py
lines 154-188): 404 when the slot is unknown, 400 when it is already
verified; otherwise store proof, method, transaction id and notes and set the
status (back) to `pending`.  The checks precede every mutation. -/
def submitOp (st : PlanState) (i : Nat) (proof method txid snotes : String) :
    Except LedgerError PlanState :=
  match st.slots[i]? with
  | none => Except.error LedgerError.notFound
  | some s =>
    if s.status = SlotStatus.verified then Except.error LedgerError.alreadyVerified
    else Except.ok { st with slots := st.slots.set i (submitSlot s proof method txid snotes) }

/-- `InstallmentPaymentVerifyView.post` with `action='verify'`
(apps/core/views/installment_views.py lines 198-232): 404 when unknown, 400
when already verified, otherwise `verify_payment`. -/
def verifyOp (st : PlanState) (i : Nat) (verifier now : Int) (today : Date) :
    Except LedgerError PlanState :=
  match st.slots[i]? with
  | none => Except.error LedgerError.notFound
  | some s =>
    if s.status = SlotStatus.verified then Except.error LedgerError.alreadyVerified
    else Except.ok (verify_payment st i s verifier now today)

/-- `InstallmentPaymentVerifyView.post` with `action='reject'`: same not-found
and already-verified guards; the serializer additionally requires a non-blank
rejection reason. -/
def rejectOp (st : PlanState) (i : Nat) (reason : String) :
    Except LedgerError PlanState :=
  match st.slots[i]? with
  | none => Except.error LedgerError.notFound
  | some s =>
    if s.status = SlotStatus.verified then Except.error LedgerError.alreadyVerified
    else if reason = "" then Except.error LedgerError.validationError
    else Except.ok (reject_payment st i s reason)

/-- One request against a fixed slot of a plan. -/
inductive SlotOp
  | submit (proof method txid snotes : String)
  | verify (verifier now : Int) (today : Date)
  | reject (reason : String)

/-- Apply one request to slot `i`; a request that ends in an error response
leaves the persistent state unchanged. -/
def slotStep (i : Nat) (st : PlanState) (op : SlotOp) : PlanState :=
  match op with
  | SlotOp.submit proof method txid snotes =>
    match submitOp st i proof method txid snotes with
    | Except.ok st' => st'
    | Except.error _ => st
  | SlotOp.verify verifier now today =>
    match verifyOp st i verifier now today with
    | Except.ok st' => st'
    | Except.error _ => st
  | SlotOp.reject reason =>
    match rejectOp st i reason with
    | Except.ok st' => st'
    | Except.error _ => st

/-- Run a finite sequence of requests against slot `i`. -/
def runSlot (st : PlanState) (i : Nat) (ops : List SlotOp) : PlanState :=
  ops.foldl (slotStep i) st

/-- `InstallmentRecord.STATUS_CHOICES` (apps/customers/models.py). -/
inductive RecStatus
  | active
  | completed
  | overdue
  | paused
deriving DecidableEq

/-- Ledger-relevant fields of `InstallmentRecord` (apps/customers/models.py).
Dates in running mode only ever enter day-difference and ordering
computations, so they are modelled as integer day numbers. -/
structure InstallmentRecord where
  total_cost : ℚ
  advance_payment : ℚ
  monthly_installment : ℚ
  remaining_amount : ℚ
  total_paid : ℚ
  start_date : Int
  default_period : Int
  interest_rate : ℚ
  status : RecStatus
  is_completed : Bool
deriving DecidableEq

/-- `PaymentRecord` (apps/customers/models.py): one trusted payment event. -/
structure PaymentRecord where
  amount_paid : ℚ
  payment_date : Int
  pnotes : String
deriving DecidableEq

/-- Combined persistent state of one running-balance record and its events. -/
structure RecordState where
  record : InstallmentRecord
  payments : List PaymentRecord
deriving DecidableEq

/-- `Sum('amount_paid')` over a set of payment events (`or Decimal('0.00')`
when empty). -/
def sumPaid (ps : List PaymentRecord) : ℚ :=
  ps.foldr (fun p acc => p.amount_paid + acc) 0

/-- The floor-and-flag part of `InstallmentRecord.save` (apps/customers/
models.py lines 199-210) as it runs on an already-persisted row (`pk` set,
`remaining_amount` set): a non-positive balance is floored to zero and the
record flagged completed. -/
def InstallmentRecord.floorSave (r : InstallmentRecord) : InstallmentRecord :=
  if r.remaining_amount ≤ 0 then
    { r with remaining_amount := 0, is_completed := true, status := RecStatus.completed }
  else r

/-- `PaymentRecord._update_installment` / `_recalculate_installment`
(apps/customers/models.py lines 287-321), including the `installment.save()`
call they end with: recompute `total_paid` and `remaining_amount` from the
full surviving event set, floor at zero, set `is_completed` both ways. -/
def updateInstallment (r : InstallmentRecord) (ps : List PaymentRecord) :
    InstallmentRecord :=
  let total_payments := sumPaid ps
  let r := { r with
    total_paid := total_payments + r.advance_payment
    remaining_amount := r.total_cost - r.advance_payment - total_payments }
  let r :=
    if r.remaining_amount ≤ 0 then
      { r with remaining_amount := 0, is_completed := true }
    else
      { r with is_completed := false }
  r.floorSave

/-- Posting a payment through `PaymentRecordCreateSerializer`
(apps/customers/serializers.py lines 43-53) and `PaymentRecord.save`
(apps/customers/models.py lines 277-279): a non-positive amount is rejected
before any row is written; otherwise the event is created and the record
recomputed. -/
def postPayment (st : RecordState) (amount : ℚ) (date : Int) (pnotes : String) :
    Except LedgerError RecordState :=
  if amount ≤ 0 then Except.error LedgerError.invalidAmount
  else
    let ps := st.payments ++ [⟨amount, date, pnotes⟩]
    Except.ok ⟨updateInstallment st.record ps, ps⟩

/-- Deleting a payment event through `PaymentRecord.delete`
(apps/customers/models.py lines 281-285): remove the row, then recompute the
record from the remaining event set. -/
def deletePayment (st : RecordState) (i : Nat) : Except LedgerError RecordState :=
  match st.payments[i]? with
  | none => Except.error LedgerError.notFound
  | some _ =>
    let ps := st.payments.eraseIdx i
    Except.ok ⟨updateInstallment st.record ps, ps⟩

/-- One request against a running-balance record. -/
inductive RecOp
  | post (amount : ℚ) (date : Int) (pnotes : String)
  | del (i : Nat)

/-- Apply one request; an error response leaves the state unchanged. -/
def recStep (st : RecordState) (op : RecOp) : RecordState :=
  match op with
  | RecOp.post amount date pnotes =>
    match postPayment st amount date pnotes with
    | Except.ok st' => st'
    | Except.error _ => st
  | RecOp.del i =>
    match deletePayment st i with
    | Except.ok st' => st'
    | Except.error _ => st

/-- Run a finite sequence of post/delete requests. -/
def runRecord (st : RecordState) (ops : List RecOp) : RecordState :=
  ops.foldl recStep st

/-- `InstallmentRecordCreateSerializer` (apps/customers/serializers.py lines
93-119): running-mode creation validates `advance_payment ≥ total_cost` and
`monthly_installment ≤ 0`, then stores `remaining_amount = total_cost -
advance_payment` and `total_paid = advance_payment`; the model `save` runs
with `pk is None`, recomputing the same remaining amount and flooring it. -/
def createRecord (total_cost advance monthly : ℚ) (start : Int) :
    Except LedgerError RecordState :=
  if total_cost ≤ advance then Except.error LedgerError.validationError
  else if monthly ≤ 0 then Except.error LedgerError.validationError
  else
    let r : InstallmentRecord := {
      total_cost := total_cost
      advance_payment := advance
      monthly_installment := monthly
      remaining_amount := total_cost - advance
      total_paid := advance
      start_date := start
      default_period := 12
      interest_rate := 0
      status := RecStatus.active
      is_completed := false }
    let r := { r with remaining_amount := r.total_cost - r.advance_payment }
    Except.ok ⟨r.floorSave, []⟩

/-- The payment event with the greatest `payment_date`
(`payments.order_by('-payment_date').first()`). -/
def lastPayment (ps : List PaymentRecord) : Option PaymentRecord :=
  ps.foldl
    (fun acc p =>
      match acc with
      | none => some p
      | some q => if q.payment_date < p.payment_date then some p else some q)
    none

/-- `InstallmentRecord.calculated_status` (apps/customers/models.py lines
212-235): completed when the completion flag is set; else paused when the
stored status is paused; else overdue when more than 35 days have passed
since the most recent payment (or, when no payment exists, since the start
date with a positive balance); else active. -/
def calculated_status (today : Int) (r : InstallmentRecord)
    (ps : List PaymentRecord) : RecStatus :=
  if r.is_completed then RecStatus.completed
  else if r.status = RecStatus.paused then RecStatus.paused
  else
    match lastPayment ps with
    | some p =>
      if 35 < today - p.payment_date then RecStatus.overdue else RecStatus.active
    | none =>
      if 35 < today - r.start_date ∧ 0 < r.remaining_amount then RecStatus.overdue
      else RecStatus.active

/-- The status rule as the specification words it (§4.4): completed when
remaining ≤ 0; else paused on the explicit pause flag; else overdue when days
since the most recent counted payment (or since the start date when none
exists) exceed 35 while remaining > 0; else active. -/
def statusRule (today : Int) (r : InstallmentRecord)
    (ps : List PaymentRecord) : RecStatus :=
  let lastActivity :=
    match lastPayment ps with
    | some p => p.payment_date
    | none => r.start_date
  if r.remaining_amount ≤ 0 then RecStatus.completed
  else if r.status = RecStatus.paused then RecStatus.paused
  else if 35 < today - lastActivity ∧ 0 < r.remaining_amount then RecStatus.overdue
  else RecStatus.active

/-- One cadence step, as used by the slot-generation loop
(apps/core/serializers.py lines 221-226). -/
def addUnit (freq : Frequency) (d : Date) : Date :=
  match freq with
  | Frequency.weekly => addDays 7 d
  | Frequency.biweekly => addDays 14 d
  | Frequency.monthly => addMonths 1 d

/-- `n` cadence units at once, as used for the end date
(apps/core/serializers.py lines 193-198): `timedelta(weeks=n)`,
`timedelta(weeks=2*n)`, or `relativedelta(months=n)`. -/
def addUnits (freq : Frequency) (n : Int) (d : Date) : Date :=
  match freq with
  | Frequency.weekly => addDays (7 * n) d
  | Frequency.biweekly => addDays (14 * n) d
  | Frequency.monthly => addMonths n d

/-- The slot-generation loop of `InstallmentPlanCreateSerializer.create`
(apps/core/serializers.py lines 211-226): slot `i` carries
`round(installment_amount, 2)` and a due date one cadence unit after the
previous slot's, starting at the plan's start date. -/
def mkSlots (amt : ℚ) (freq : Frequency) : Nat → Int → Date → List InstallmentPayment
  | 0, _, _ => []
  | k + 1, i, d =>
    { installment_number := i
      amount := amt
      payment_method := "cash"
      due_date := d
      payment_date := none
      payment_proof := none
      transaction_id := ""
      status := SlotStatus.pending
      verified_by := none
      verified_at := none
      notes := ""
      rejection_reason := none } :: mkSlots amt freq k (i + 1) (addUnit freq d)

/-- `InstallmentPlanCreateSerializer.create` (apps/core/serializers.py lines
174-228).  The serializer performs no parameter validation: the only failure
is Python's `ZeroDivisionError` when `number_of_installments = 0`.  The plan
row runs the model `save` hook and is persisted with its two-decimal columns
quantized (`DecimalField(decimal_places=2)` rounds half-even on write). -/
def createPlan (total_amount down_payment interest_rate : ℚ) (n : Int)
    (freq : Frequency) (start : Date) :
    Except LedgerError (InstallmentPlan × List InstallmentPayment) :=
  if n = 0 then Except.error LedgerError.zeroDivision
  else
    let principal := total_amount - down_payment
    let interest := principal * (interest_rate / 100)
    let remaining := principal + interest
    let installment := remaining / (n : ℚ)
    let endDate := addUnits freq n start
    let plan : InstallmentPlan := {
      total_amount := total_amount
      down_payment := down_payment
      remaining_amount := remaining
      interest_rate := interest_rate
      number_of_installments := n
      installment_amount := roundCents installment
      frequency := freq
      start_date := start
      end_date := endDate
      next_due_date := some start
      status := PlanStatus.active
      installments_paid := 0 }
    let plan := plan.hookSave
    let plan := { plan with
      remaining_amount := roundCents plan.remaining_amount
      installment_amount := roundCents plan.installment_amount }
    Except.ok (plan, mkSlots (roundCents installment) freq n.toNat 1 start)

/-- Status of slot `i` of a plan state, when the slot exists. -/
def statusAt (st : PlanState) (i : Nat) : Option SlotStatus :=
  (st.slots[i]?).map InstallmentPayment.status

/-- `True` on a successful response, `False` on an error response. -/
def exceptOk {e a : Type} : Except e a → Bool
  | Except.ok _ => true
  | Except.error _ => false

theorem hookSave_remaining (p : InstallmentPlan) :
    p.hookSave.remaining_amount =
      (if p.remaining_amount = 0 then p.total_amount - p.down_payment
       else p.remaining_amount) := by
  simp only [InstallmentPlan.hookSave]
  by_cases h : p.remaining_amount = 0 <;> simp only [h, if_true, if_false] <;> split <;> rfl

theorem hookSave_total (p : InstallmentPlan) :
    p.hookSave.total_amount = p.total_amount := by
  simp only [InstallmentPlan.hookSave]
  split <;> split <;> rfl

theorem hookSave_down (p : InstallmentPlan) :
    p.hookSave.down_payment = p.down_payment := by
  simp only [InstallmentPlan.hookSave]
  split <;> split <;> rfl

theorem hookSave_status (p : InstallmentPlan) :
    p.hookSave.status = p.status := by
  simp only [InstallmentPlan.hookSave]
  split <;> split <;> rfl

theorem hookSave_end_date (p : InstallmentPlan) :
    p.hookSave.end_date = p.end_date := by
  simp only [InstallmentPlan.hookSave]
  split <;> split <;> rfl

theorem update_status_remaining (today : Date) (p : InstallmentPlan) :
    (p.update_status today).remaining_amount =
      (if p.remaining_amount = 0 then p.total_amount - p.down_payment
       else p.remaining_amount) := by
  simp only [InstallmentPlan.update_status]
  split
  · rw [hookSave_remaining]
  · split <;> rw [hookSave_remaining]

theorem update_status_total (today : Date) (p : InstallmentPlan) :
    (p.update_status today).total_amount = p.total_amount := by
  simp only [InstallmentPlan.update_status]
  split
  · rw [hookSave_total]
  · split <;> rw [hookSave_total]

theorem update_status_down (today : Date) (p : InstallmentPlan) :
    (p.update_status today).down_payment = p.down_payment := by
  simp only [InstallmentPlan.update_status]
  split
  · rw [hookSave_down]
  · split <;> rw [hookSave_down]

theorem update_status_completed (today : Date) (p : InstallmentPlan)
    (h : p.remaining_amount ≤ 0) :
    (p.update_status today).status = PlanStatus.completed := by
  simp only [InstallmentPlan.update_status]
  rw [if_pos h, hookSave_status]

/-- A request aimed at an already-verified slot is refused without touching
any state. -/
theorem slotStep_verified_fixed (i : Nat) (st : PlanState)
    (s : InstallmentPayment) (hs : st.slots[i]? = some s)
    (hv : s.status = SlotStatus.verified) (op : SlotOp) :
    slotStep i st op = st := by
  cases op with
  | submit proof method txid snotes =>
    simp [slotStep, submitOp, hs, hv]
  | verify verifier now today =>
    simp [slotStep, verifyOp, hs, hv]
  | reject reason =>
    simp [slotStep, rejectOp, hs, hv]

/-- Once a slot is verified, any further sequence of requests against it
leaves the whole plan state unchanged. -/
theorem runSlot_verified_fixed (i : Nat) (ops : List SlotOp) :
    ∀ (st : PlanState) (s : InstallmentPayment),
      st.slots[i]? = some s → s.status = SlotStatus.verified →
      runSlot st i ops = st := by
  induction ops with
  | nil => intro st s _ _; rfl
  | cons op ops ih =>
    intro st s hs hv
    show runSlot (slotStep i st op) i ops = st
    rw [slotStep_verified_fixed i st s hs hv op]
    exact ih st s hs hv

theorem getElem?_set_self {α : Type} (l : List α) (i : Nat) (a b : α)
    (h : l[i]? = some a) : (l.set i b)[i]? = some b := by
  have hlt : i < l.length := by
    rcases List.getElem?_eq_some.mp h with ⟨hlt, _⟩
    exact hlt
  exact List.getElem?_set_eq_of_lt b hlt

/-- The plan reached by a verification: balance decremented by the slot
amount, except that a balance landing exactly on zero is recomputed as
`total_amount - down_payment` by the save hook. -/
theorem verify_payment_remaining (st : PlanState) (i : Nat)
    (s : InstallmentPayment) (verifier now : Int) (today : Date) :
    (verify_payment st i s verifier now today).plan.remaining_amount =
      (if st.plan.remaining_amount - s.amount = 0
       then st.plan.total_amount - st.plan.down_payment
       else st.plan.remaining_amount - s.amount) := by
  unfold verify_payment
  rw [update_status_remaining]

theorem verify_payment_total (st : PlanState) (i : Nat)
    (s : InstallmentPayment) (verifier now : Int) (today : Date) :
    (verify_payment st i s verifier now today).plan.total_amount =
      st.plan.total_amount := by
  unfold verify_payment
  rw [update_status_total]

theorem verify_payment_down (st : PlanState) (i : Nat)
    (s : InstallmentPayment) (verifier now : Int) (today : Date) :
    (verify_payment st i s verifier now today).plan.down_payment =
      st.plan.down_payment := by
  unfold verify_payment
  rw [update_status_down]

theorem verify_payment_slot (st : PlanState) (i : Nat)
    (s : InstallmentPayment) (verifier now : Int) (today : Date)
    (hs : st.slots[i]? = some s) :
    ∃ s', (verify_payment st i s verifier now today).slots[i]? = some s' ∧
      s'.status = SlotStatus.verified := by
  refine ⟨_, getElem?_set_self st.slots i s _ hs, rfl⟩

/-- Outcome of any request sequence against a non-verified slot: either the
slot never got verified and the plan row is untouched, or it is verified and
the balance was decremented by the slot amount exactly once (with the save
hook's zero-reset applied when the decrement lands exactly on zero). -/
theorem runSlot_spec (i : Nat) (ops : List SlotOp) :
    ∀ (st : PlanState) (s : InstallmentPayment),
      st.slots[i]? = some s → s.status ≠ SlotStatus.verified →
      (statusAt (runSlot st i ops) i ≠ some SlotStatus.verified ∧
         (runSlot st i ops).plan = st.plan) ∨
      (statusAt (runSlot st i ops) i = some SlotStatus.verified ∧
         (runSlot st i ops).plan.remaining_amount =
           (if st.plan.remaining_amount - s.amount = 0
            then st.plan.total_amount - st.plan.down_payment
            else st.plan.remaining_amount - s.amount) ∧
         (runSlot st i ops).plan.total_amount = st.plan.total_amount ∧
         (runSlot st i ops).plan.down_payment = st.plan.down_payment) := by
  induction ops with
  | nil =>
    intro st s hs hnv
    left
    constructor
    · show statusAt st i ≠ some SlotStatus.verified
      simp only [statusAt, hs, Option.map_some']
      intro hcontra
      exact hnv (Option.some.injEq _ _ ▸ hcontra)
    · rfl
  | cons op ops ih =>
    intro st s hs hnv
    show _ ∨ _
    have hrun : runSlot st i (op :: ops) = runSlot (slotStep i st op) i ops := rfl
    cases op with
    | submit proof method txid snotes =>
      have hstep : slotStep i st (SlotOp.submit proof method txid snotes) =
          { st with slots := st.slots.set i (submitSlot s proof method txid snotes) } := by
        simp [slotStep, submitOp, hs, hnv]
      rw [hrun, hstep]
      have hs' : ({ st with slots := st.slots.set i (submitSlot s proof method txid snotes) } :
          PlanState).slots[i]? = some (submitSlot s proof method txid snotes) :=
        getElem?_set_self st.slots i s _ hs
      exact ih _ (submitSlot s proof method txid snotes) hs'
        (by intro h; simp [submitSlot] at h)
    | verify verifier now today =>
      have hstep : slotStep i st (SlotOp.verify verifier now today) =
          verify_payment st i s verifier now today := by
        simp [slotStep, verifyOp, hs, hnv]
      rw [hrun, hstep]
      rcases verify_payment_slot st i s verifier now today hs with ⟨s', hs', hv'⟩
      rw [runSlot_verified_fixed i ops _ s' hs' hv']
      right
      refine ⟨?_, ?_, ?_, ?_⟩
      · simp only [statusAt, hs', Option.map_some', hv']
      · exact verify_payment_remaining st i s verifier now today
      · exact verify_payment_total st i s verifier now today
      · exact verify_payment_down st i s verifier now today
    | reject reason =>
      by_cases hr : reason = ""
      · have hstep : slotStep i st (SlotOp.reject reason) = st := by
          simp [slotStep, rejectOp, hs, hnv, hr]
        rw [hrun, hstep]
        exact ih st s hs hnv
      · have hstep : slotStep i st (SlotOp.reject reason) =
            { st with slots := st.slots.set i (rejectSlot s reason) } := by
          simp [slotStep, rejectOp, reject_payment, hs, hnv, hr]
        rw [hrun, hstep]
        have hs' : ({ st with slots := st.slots.set i (rejectSlot s reason) } :
            PlanState).slots[i]? = some (rejectSlot s reason) :=
          getElem?_set_self st.slots i s _ hs
        exact ih _ (rejectSlot s reason) hs'
          (by intro h; simp [rejectSlot] at h)

theorem updateInstallment_remaining (r : InstallmentRecord)
    (ps : List PaymentRecord) :
    (updateInstallment r ps).remaining_amount =
      max 0 (r.total_cost - r.advance_payment - sumPaid ps) := by
  by_cases h : r.total_cost - r.advance_payment - sumPaid ps ≤ 0
  · simp only [updateInstallment, InstallmentRecord.floorSave, h, if_true, if_pos le_rfl]
    exact (max_eq_left h).symm
  · have h' : (0:ℚ) < r.total_cost - r.advance_payment - sumPaid ps := not_le.mp h
    simp only [updateInstallment, InstallmentRecord.floorSave, h, if_false, if_neg h]
    exact (max_eq_right (le_of_lt h')).symm

theorem updateInstallment_total_paid (r : InstallmentRecord)
    (ps : List PaymentRecord) :
    (updateInstallment r ps).total_paid = sumPaid ps + r.advance_payment := by
  by_cases h : r.total_cost - r.advance_payment - sumPaid ps ≤ 0 <;>
    simp [updateInstallment, InstallmentRecord.floorSave, h]

theorem updateInstallment_is_completed (r : InstallmentRecord)
    (ps : List PaymentRecord) :
    ((updateInstallment r ps).is_completed = true ↔
      r.total_cost - r.advance_payment - sumPaid ps ≤ 0) := by
  by_cases h : r.total_cost - r.advance_payment - sumPaid ps ≤ 0 <;>
    simp [updateInstallment, InstallmentRecord.floorSave, h]

theorem updateInstallment_total_cost (r : InstallmentRecord)
    (ps : List PaymentRecord) :
    (updateInstallment r ps).total_cost = r.total_cost := by
  by_cases h : r.total_cost - r.advance_payment - sumPaid ps ≤ 0 <;>
    simp [updateInstallment, InstallmentRecord.floorSave, h]

theorem updateInstallment_advance (r : InstallmentRecord)
    (ps : List PaymentRecord) :
    (updateInstallment r ps).advance_payment = r.advance_payment := by
  by_cases h : r.total_cost - r.advance_payment - sumPaid ps ≤ 0 <;>
    simp [updateInstallment, InstallmentRecord.floorSave, h]

/-- The ledger invariant of a running-balance record: the stored balance is
the direct aggregation of the surviving payment events floored at zero, and
the completion flag holds exactly on a zero balance. -/
def recInvariant (st : RecordState) : Prop :=
  st.record.remaining_amount =
    max 0 (st.record.total_cost - st.record.advance_payment - sumPaid st.payments) ∧
  (st.record.is_completed = true ↔ st.record.remaining_amount = 0)

instance (st : RecordState) : Decidable (recInvariant st) := by
  unfold recInvariant
  infer_instance

/-- A record freshly produced by `updateInstallment` satisfies the ledger
invariant with respect to the event set it aggregated. -/
theorem updateInstallment_invariant (r : InstallmentRecord)
    (ps : List PaymentRecord) :
    recInvariant ⟨updateInstallment r ps, ps⟩ := by
  constructor
  · show (updateInstallment r ps).remaining_amount =
      max 0 ((updateInstallment r ps).total_cost -
        (updateInstallment r ps).advance_payment - sumPaid ps)
    rw [updateInstallment_total_cost, updateInstallment_advance,
      updateInstallment_remaining]
  · show (updateInstallment r ps).is_completed = true ↔
      (updateInstallment r ps).remaining_amount = 0
    rw [updateInstallment_is_completed, updateInstallment_remaining]
    constructor
    · intro h
      exact max_eq_left h
    · intro h
      by_contra hc
      have h' : (0:ℚ) < r.total_cost - r.advance_payment - sumPaid ps := not_le.mp hc
      rw [max_eq_right (le_of_lt h')] at h
      exact absurd h (ne_of_gt h')

/-- Every post/delete request preserves the ledger invariant. -/
theorem recStep_invariant (st : RecordState) (op : RecOp)
    (h : recInvariant st) : recInvariant (recStep st op) := by
  cases op with
  | post amount date pnotes =>
    by_cases ha : amount ≤ 0
    · simp only [recStep, postPayment, ha, if_true]
      exact h
    · simp only [recStep, postPayment, ha, if_false]
      exact updateInstallment_invariant st.record _
  | del i =>
    cases hi : st.payments[i]? with
    | none => simp only [recStep, deletePayment, hi]; exact h
    | some p =>
      simp only [recStep, deletePayment, hi]
      exact updateInstallment_invariant st.record _

/-- The ledger invariant is preserved by every finite request sequence. -/
theorem runRecord_invariant (ops : List RecOp) :
    ∀ st : RecordState, recInvariant st → recInvariant (runRecord st ops) := by
  induction ops with
  | nil => intro st h; exact h
  | cons op ops ih =>
    intro st h
    exact ih (recStep st op) (recStep_invariant st op h)

/-- A freshly created running-balance record satisfies the ledger
invariant. -/
theorem createRecord_invariant (total_cost advance monthly : ℚ) (start : Int)
    (st : RecordState) (h : createRecord total_cost advance monthly start = Except.ok st) :
    recInvariant st := by
  by_cases h1 : total_cost ≤ advance
  · simp only [createRecord, h1, if_true] at h
    cases h
  · by_cases h2 : monthly ≤ 0
    · simp only [createRecord, h1, h2, if_true, if_false] at h
      cases h
    · have hpos : (0:ℚ) < total_cost - advance := by
        have := not_le.mp h1
        linarith
      have hfloor : ¬ (total_cost - advance ≤ 0) := not_le.mpr hpos
      simp only [createRecord, h1, h2, if_false, InstallmentRecord.floorSave,
        hfloor, ite_false] at h
      cases h
      constructor
      · show total_cost - advance = max 0 (total_cost - advance - sumPaid [])
        have hz : sumPaid [] = 0 := rfl
        rw [hz, sub_zero, max_eq_right (le_of_lt hpos)]
      · show false = true ↔ total_cost - advance = 0
        constructor
        · intro hc; simp at hc
        · intro hc; exact absurd hc (ne_of_gt hpos)

/-- Recomputation from an unchanged event set is idempotent: the second run
reproduces the record field for field. -/
theorem updateInstallment_idem (r : InstallmentRecord) (ps : List PaymentRecord) :
    updateInstallment (updateInstallment r ps) ps = updateInstallment r ps := by
  by_cases h : r.total_cost - r.advance_payment - sumPaid ps ≤ 0 <;>
    simp [updateInstallment, InstallmentRecord.floorSave, h]

/-- Total of the generated slot amounts. -/
def sumAmounts (slots : List InstallmentPayment) : ℚ :=
  slots.foldr (fun s acc => s.amount + acc) 0

theorem sumAmounts_mkSlots (amt : ℚ) (freq : Frequency) :
    ∀ (k : Nat) (i : Int) (d : Date),
      sumAmounts (mkSlots amt freq k i d) = (k : ℚ) * amt := by
  intro k
  induction k with
  | zero => intro i d; simp [mkSlots, sumAmounts]
  | succ k ih =>
    intro i d
    show amt + sumAmounts (mkSlots amt freq k (i + 1) (addUnit freq d)) = _
    rw [ih]
    push_cast
    ring

/-- Rounding-drift bound: `n` equal slots of the half-even-rounded per-slot
amount differ from the half-even-rounded total by strictly less than one
cent per slot beyond the first. -/
theorem drift_bound (rq : ℚ) (n : Int) (hn : 1 ≤ n) :
    |(n : ℚ) * roundCents (rq / (n : ℚ)) - roundCents rq| ≤ ((n : ℚ) - 1) / 100 := by
  have h100 : (0:ℚ) < 100 := by norm_num
  set k := rheInt (100 * (rq / (n : ℚ))) with hk
  set m := rheInt (100 * rq) with hm
  have hlhs : (n : ℚ) * roundCents (rq / (n : ℚ)) - roundCents rq =
      ((n * k - m : Int) : ℚ) / 100 := by
    unfold roundCents
    rw [← hk, ← hm]
    push_cast
    ring
  rw [hlhs, abs_div, abs_of_pos h100]
  have hkey : |((n * k - m : Int) : ℚ)| ≤ (n : ℚ) - 1 := by
    by_cases h1 : n = 1
    · subst h1
      have : rq / ((1 : Int) : ℚ) = rq := by norm_num
      rw [hk, hm, this]
      simp
    · have hn2 : 2 ≤ n := by omega
      have hn2q : (2 : ℚ) ≤ (n : ℚ) := by exact_mod_cast hn2
      have hn0 : ((n : ℚ)) ≠ 0 := by positivity
      have ha : |(k : ℚ) - 100 * (rq / (n : ℚ))| ≤ 1/2 := abs_rheInt_sub_le _
      have hb : |(m : ℚ) - 100 * rq| ≤ 1/2 := abs_rheInt_sub_le _
      have hmul : (n : ℚ) * (100 * (rq / (n : ℚ))) = 100 * rq := by
        field_simp
      have ha' : |(n : ℚ) * (k : ℚ) - 100 * rq| ≤ (n : ℚ) / 2 := by
        have : (n : ℚ) * (k : ℚ) - 100 * rq =
            (n : ℚ) * ((k : ℚ) - 100 * (rq / (n : ℚ))) := by
          rw [mul_sub, hmul]
        rw [this, abs_mul, abs_of_pos (by linarith : (0:ℚ) < (n : ℚ))]
        calc (n : ℚ) * |(k : ℚ) - 100 * (rq / (n : ℚ))|
            ≤ (n : ℚ) * (1/2) := by
              apply mul_le_mul_of_nonneg_left ha (by linarith)
          _ = (n : ℚ) / 2 := by ring
      have htri : |(n : ℚ) * (k : ℚ) - (m : ℚ)| < (n : ℚ) := by
        calc |(n : ℚ) * (k : ℚ) - (m : ℚ)|
            = |((n : ℚ) * (k : ℚ) - 100 * rq) + (100 * rq - (m : ℚ))| := by ring_nf
          _ ≤ |(n : ℚ) * (k : ℚ) - 100 * rq| + |100 * rq - (m : ℚ)| := abs_add _ _
          _ ≤ (n : ℚ) / 2 + 1/2 := by
              have hb' : |100 * rq - (m : ℚ)| ≤ 1/2 := by
                rw [abs_sub_comm] at hb
                exact hb
              linarith
          _ < (n : ℚ) := by linarith
      have hcast : ((n * k - m : Int) : ℚ) = (n : ℚ) * (k : ℚ) - (m : ℚ) := by
        push_cast
        ring
      have hint : |n * k - m| < n := by
        have : |((n * k - m : Int) : ℚ)| < ((n : Int) : ℚ) := by
          rw [hcast]
          exact htri
        rw [← Int.cast_abs] at this
        exact_mod_cast this
      have hle : |n * k - m| ≤ n - 1 := by omega
      calc |((n * k - m : Int) : ℚ)| = ((|n * k - m| : Int) : ℚ) := by
            rw [Int.cast_abs]
        _ ≤ ((n - 1 : Int) : ℚ) := by exact_mod_cast hle
        _ = (n : ℚ) - 1 := by push_cast; ring
  linarith

/-- The code's status derivation agrees with the specification's rule on
every record whose completion flag tracks a non-positive balance. -/
theorem calculated_status_eq (today : Int) (r : InstallmentRecord)
    (ps : List PaymentRecord)
    (h : r.is_completed = true ↔ r.remaining_amount ≤ 0) :
    calculated_status today r ps = statusRule today r ps := by
  unfold calculated_status statusRule
  cases hlp : lastPayment ps with
  | none =>
    by_cases hc : r.is_completed = true
    · have h0 : r.remaining_amount ≤ 0 := h.mp hc
      simp [hc, h0]
    · have h1 : ¬ r.remaining_amount ≤ 0 := fun hl => hc (h.mpr hl)
      simp [hc, h1, hlp]
  | some p =>
    by_cases hc : r.is_completed = true
    · have h0 : r.remaining_amount ≤ 0 := h.mp hc
      simp [hc, h0]
    · have h1 : ¬ r.remaining_amount ≤ 0 := fun hl => hc (h.mpr hl)
      have hpos : 0 < r.remaining_amount := not_le.mp h1
      by_cases hps : r.status = RecStatus.paused
      · simp [hc, h1, hps]
      · by_cases ht : 35 < today - p.payment_date
        · simp [hc, h1, hps, hlp, ht, hpos]
        · simp [hc, h1, hps, hlp, ht]

deriving instance DecidableEq for Except

/-- Sum of the amounts of the verified slots of a plan
(`InstallmentPlan.total_paid`). -/
def verifiedTotal (slots : List InstallmentPayment) : ℚ :=
  (slots.filter (fun s => s.status = SlotStatus.verified)).foldr
    (fun s acc => s.amount + acc) 0

/-- A fresh pending slot, used as a concrete test fixture. -/
def baseSlot (i : Int) (amt : ℚ) (d : Date) : InstallmentPayment :=
  { installment_number := i
    amount := amt
    payment_method := "cash"
    due_date := d
    payment_date := none
    payment_proof := none
    transaction_id := ""
    status := SlotStatus.pending
    verified_by := none
    verified_at := none
    notes := ""
    rejection_reason := none }

/-- A concrete active plan, used as a test fixture. -/
def basePlan (total down remaining : ℚ) (n : Int) : InstallmentPlan :=
  { total_amount := total
    down_payment := down
    remaining_amount := remaining
    interest_rate := 0
    number_of_installments := n
    installment_amount := 50
    frequency := Frequency.monthly
    start_date := ⟨2024, 1, 15⟩
    end_date := ⟨2024, 6, 15⟩
    next_due_date := some ⟨2024, 1, 15⟩
    status := PlanStatus.active
    installments_paid := 0 }

/-- Plan of 100 with two pending slots of 50 each. -/
def cexSt : PlanState :=
  ⟨basePlan 100 0 100 2, [baseSlot 1 50 ⟨2024, 1, 15⟩, baseSlot 2 50 ⟨2024, 2, 15⟩]⟩

/-- Plan of 50 with a single pending slot of 50. -/
def cex2St : PlanState :=
  ⟨basePlan 50 0 50 1, [baseSlot 1 50 ⟨2024, 1, 15⟩]⟩

/-- Plan whose single slot is already verified. -/
def c9St : PlanState :=
  ⟨basePlan 100 0 50 2, [{ baseSlot 1 50 ⟨2024, 1, 15⟩ with status := SlotStatus.verified }]⟩

/-- The record produced by `createRecord 5000 500 1000 0`. -/
def c1Rec : InstallmentRecord :=
  { total_cost := 5000
    advance_payment := 500
    monthly_installment := 1000
    remaining_amount := 4500
    total_paid := 500
    start_date := 0
    default_period := 12
    interest_rate := 0
    status := RecStatus.active
    is_completed := false }

/-- C1 (amended).  Running mode: from any freshly created record, every
finite sequence of post/delete requests preserves
`remaining_amount = max 0 (total_cost - advance_payment - sum(payments))`
with `is_completed` holding exactly on a zero balance.  Scheduled mode: a
successful verification updates the balance to `remaining - amount` with no
floor, except that a balance landing exactly on zero is recomputed as
`total_amount - down_payment` by the save hook. -/
theorem c1_balance_invariant :
    (∀ (total_cost advance monthly : ℚ) (start : Int) (ops : List RecOp)
       (st : RecordState),
       createRecord total_cost advance monthly start = Except.ok st →
       recInvariant (runRecord st ops)) ∧
    (∀ (st : PlanState) (i : Nat) (s : InstallmentPayment) (verifier now : Int)
       (today : Date) (st' : PlanState),
       st.slots[i]? = some s →
       verifyOp st i verifier now today = Except.ok st' →
       st'.plan.remaining_amount =
         (if st.plan.remaining_amount - s.amount = 0
          then st.plan.total_amount - st.plan.down_payment
          else st.plan.remaining_amount - s.amount)) := by
  constructor
  · intro total_cost advance monthly start ops st h
    exact runRecord_invariant ops st (createRecord_invariant total_cost advance monthly start st h)
  · intro st i s verifier now today st' hs hok
    simp only [verifyOp, hs] at hok
    by_cases hv : s.status = SlotStatus.verified
    · simp [hv] at hok
    · simp only [hv, if_false, Except.ok.injEq] at hok
      subst hok
      exact verify_payment_remaining st i s verifier now today

/-- Witness for C1: a run on a fresh 5000/500 record keeps the invariant,
and a verification of a 50 slot against a balance of 100 leaves 50. -/
theorem c1_balance_invariant_witness :
    recInvariant (runRecord ⟨c1Rec, []⟩
      [RecOp.post 1500 1 "", RecOp.post 3000 2 "", RecOp.del 1]) ∧
    (match verifyOp cexSt 0 7 0 ⟨2024, 1, 20⟩ with
     | Except.ok st' => st'.plan.remaining_amount = 50
     | Except.error _ => False) := by
  constructor
  · exact c1_balance_invariant.1 5000 500 1000 0 _ _ rfl
  · have h := c1_balance_invariant.2 cexSt 0 (baseSlot 1 50 ⟨2024, 1, 15⟩)
      7 0 ⟨2024, 1, 20⟩
      (verify_payment cexSt 0 (baseSlot 1 50 ⟨2024, 1, 15⟩) 7 0 ⟨2024, 1, 20⟩) rfl rfl
    show (verify_payment cexSt 0 (baseSlot 1 50 ⟨2024, 1, 15⟩) 7 0
      ⟨2024, 1, 20⟩).plan.remaining_amount = 50
    rw [h]
    decide

/-- Counterexample to C1 as stated: verifying both 50-slots of a 100 plan
ends with `remaining_amount = 100`, not the claimed floored value
`max 0 (100 - 0 - 100) = 0`, because the save hook treats the zero balance
as unset and recomputes it. -/
theorem c1_counterexample :
    verifiedTotal (slotStep 1 (slotStep 0 cexSt (SlotOp.verify 7 0 ⟨2024, 1, 20⟩))
        (SlotOp.verify 7 1 ⟨2024, 2, 20⟩)).slots = 100 ∧
    (slotStep 1 (slotStep 0 cexSt (SlotOp.verify 7 0 ⟨2024, 1, 20⟩))
        (SlotOp.verify 7 1 ⟨2024, 2, 20⟩)).plan.remaining_amount = 100 ∧
    (slotStep 1 (slotStep 0 cexSt (SlotOp.verify 7 0 ⟨2024, 1, 20⟩))
        (SlotOp.verify 7 1 ⟨2024, 2, 20⟩)).plan.remaining_amount ≠
      max 0 (cexSt.plan.total_amount - cexSt.plan.down_payment -
        verifiedTotal (slotStep 1 (slotStep 0 cexSt (SlotOp.verify 7 0 ⟨2024, 1, 20⟩))
          (SlotOp.verify 7 1 ⟨2024, 2, 20⟩)).slots) := by
  refine ⟨by decide, by decide, by decide⟩

/-- C2 (amended).  For any finite submit/verify/reject sequence against one
slot: a verified slot is terminal (the whole state is frozen); if the slot
never reaches `verified` the plan row is untouched; if it does, the balance
was decremented by the slot amount exactly once - except that a decrement
landing exactly on zero is replaced by the save hook's recomputed
`total_amount - down_payment`. -/
theorem c2_slot_lifecycle (st : PlanState) (i : Nat) (s : InstallmentPayment)
    (ops : List SlotOp) (hs : st.slots[i]? = some s) :
    (s.status = SlotStatus.verified → runSlot st i ops = st) ∧
    (s.status ≠ SlotStatus.verified →
      statusAt (runSlot st i ops) i ≠ some SlotStatus.verified →
      (runSlot st i ops).plan = st.plan) ∧
    (s.status ≠ SlotStatus.verified →
      statusAt (runSlot st i ops) i = some SlotStatus.verified →
      (runSlot st i ops).plan.remaining_amount =
        (if st.plan.remaining_amount - s.amount = 0
         then st.plan.total_amount - st.plan.down_payment
         else st.plan.remaining_amount - s.amount)) := by
  refine ⟨fun hv => runSlot_verified_fixed i ops st s hs hv, ?_, ?_⟩
  · intro hnv hne
    rcases runSlot_spec i ops st s hs hnv with ⟨_, hp⟩ | ⟨hv, _⟩
    · exact hp
    · exact absurd hv hne
  · intro hnv hve
    rcases runSlot_spec i ops st s hs hnv with ⟨hne, _⟩ | ⟨_, hr, _, _⟩
    · exact absurd hve hne
    · exact hr

/-- A reject, then resubmit, then verify cycle against slot 0. -/
def c2WitOps : List SlotOp :=
  [SlotOp.reject "bad proof", SlotOp.submit "img" "cash" "t9" "resent",
   SlotOp.verify 7 0 ⟨2024, 1, 21⟩]

/-- Witness for C2: a reject-resubmit-verify cycle on a 50 slot of the
two-slot 100 plan decrements the balance by 50 exactly once, and a sequence
against an already-verified slot changes nothing. -/
theorem c2_slot_lifecycle_witness :
    (runSlot cexSt 0 c2WitOps).plan.remaining_amount = 50 ∧
    runSlot c9St 0 [SlotOp.submit "img" "cash" "t9" "",
      SlotOp.verify 7 0 ⟨2024, 1, 21⟩] = c9St := by
  constructor
  · have h := (c2_slot_lifecycle cexSt 0 (baseSlot 1 50 ⟨2024, 1, 15⟩)
      c2WitOps rfl).2.2 (by decide) (by decide)
    rw [h]
    decide
  · exact (c2_slot_lifecycle c9St 0
      ({ baseSlot 1 50 ⟨2024, 1, 15⟩ with status := SlotStatus.verified })
      [SlotOp.submit "img" "cash" "t9" "", SlotOp.verify 7 0 ⟨2024, 1, 21⟩] rfl).1 rfl

/-- Counterexample to C2 as stated: verifying the single 50 slot of a plan
with balance 50 does not decrement the balance by the slot amount - the
balance lands on zero and the save hook resets it to
`total_amount - down_payment = 50`. -/
theorem c2_counterexample :
    statusAt (runSlot cex2St 0 [SlotOp.verify 7 0 ⟨2024, 1, 20⟩]) 0 =
      some SlotStatus.verified ∧
    (runSlot cex2St 0 [SlotOp.verify 7 0 ⟨2024, 1, 20⟩]).plan.remaining_amount = 50 ∧
    (runSlot cex2St 0 [SlotOp.verify 7 0 ⟨2024, 1, 20⟩]).plan.remaining_amount ≠
      cex2St.plan.remaining_amount - 50 := by
  refine ⟨by decide, by decide, by decide⟩

/-- C3.  `postPayment` rejects every non-positive amount with
`InvalidAmount`, creating no event and leaving the record untouched; for a
positive amount it appends the event and recomputes `total_paid` and the
floored `remaining_amount` from the full event set, with `is_completed`
holding exactly when the floored remaining is zero. -/
theorem c3_postPayment (st : RecordState) (amount : ℚ) (date : Int)
    (pnotes : String) :
    (amount ≤ 0 →
       postPayment st amount date pnotes = Except.error LedgerError.invalidAmount ∧
       recStep st (RecOp.post amount date pnotes) = st) ∧
    (0 < amount →
       postPayment st amount date pnotes =
         Except.ok ⟨updateInstallment st.record (st.payments ++ [⟨amount, date, pnotes⟩]),
           st.payments ++ [⟨amount, date, pnotes⟩]⟩ ∧
       (updateInstallment st.record (st.payments ++ [⟨amount, date, pnotes⟩])).total_paid =
         sumPaid (st.payments ++ [⟨amount, date, pnotes⟩]) + st.record.advance_payment ∧
       (updateInstallment st.record (st.payments ++ [⟨amount, date, pnotes⟩])).remaining_amount =
         max 0 (st.record.total_cost - st.record.advance_payment -
           sumPaid (st.payments ++ [⟨amount, date, pnotes⟩])) ∧
       ((updateInstallment st.record (st.payments ++ [⟨amount, date, pnotes⟩])).is_completed = true ↔
         (updateInstallment st.record (st.payments ++ [⟨amount, date, pnotes⟩])).remaining_amount = 0)) := by
  constructor
  · intro ha
    constructor
    · simp [postPayment, ha]
    · simp [recStep, postPayment, ha]
  · intro ha
    have hne : ¬ amount ≤ 0 := not_le.mpr ha
    refine ⟨by simp [postPayment, hne], updateInstallment_total_paid _ _,
      updateInstallment_remaining _ _, ?_⟩
    exact (updateInstallment_invariant st.record _).2

/-- Witness for C3: a -5 posting on the fresh 5000/500 record errors with
the state unchanged, and a 4500 posting zeroes the balance and completes
the record. -/
theorem c3_postPayment_witness :
    (postPayment ⟨c1Rec, []⟩ (-5) 1 "" = Except.error LedgerError.invalidAmount ∧
     recStep ⟨c1Rec, []⟩ (RecOp.post (-5) 1 "") = ⟨c1Rec, []⟩) ∧
    ((updateInstallment c1Rec [⟨4500, 1, ""⟩]).remaining_amount =
       max 0 (c1Rec.total_cost - c1Rec.advance_payment - sumPaid [⟨4500, 1, ""⟩]) ∧
     (updateInstallment c1Rec [⟨4500, 1, ""⟩]).remaining_amount = 0 ∧
     (updateInstallment c1Rec [⟨4500, 1, ""⟩]).is_completed = true) := by
  refine ⟨(c3_postPayment ⟨c1Rec, []⟩ (-5) 1 "").1 (by norm_num), ?_, by decide, by decide⟩
  exact ((c3_postPayment ⟨c1Rec, []⟩ 4500 1 "").2 (by norm_num)).2.2.1

/-- C4 (amended).  Scheduled-mode plan creation validates nothing: every
input with a non-zero installment count succeeds (including a down payment
at or above the principal), and a zero count fails only with an unhandled
division-by-zero.  The invalid-parameter checks exist only in running-mode
record creation, which fails exactly when `advance_payment ≥ total_cost` or
`monthly_installment ≤ 0`, before any row is written. -/
theorem c4_creation_validation :
    (∀ (t d r : ℚ) (n : Int) (freq : Frequency) (start : Date), n ≠ 0 →
       exceptOk (createPlan t d r n freq start) = true) ∧
    (∀ (t d r : ℚ) (freq : Frequency) (start : Date),
       createPlan t d r 0 freq start = Except.error LedgerError.zeroDivision) ∧
    (∀ (tc adv m : ℚ) (sd : Int),
       (exceptOk (createRecord tc adv m sd) = false ↔ (tc ≤ adv ∨ m ≤ 0))) := by
  refine ⟨?_, ?_, ?_⟩
  · intro t d r n freq start hn
    simp [createPlan, hn, exceptOk]
  · intro t d r freq start
    simp [createPlan]
  · intro tc adv m sd
    by_cases h1 : tc ≤ adv
    · simp [createRecord, h1, exceptOk]
    · by_cases h2 : m ≤ 0 <;> simp [createRecord, h1, h2, exceptOk]

/-- Witness for C4: creation with a valid count succeeds, and the
running-mode validation rejects `advance ≥ total`. -/
theorem c4_creation_validation_witness :
    ((3 : Int) ≠ 0 ∧
     exceptOk (createPlan 1200 200 0 3 Frequency.weekly ⟨2024, 3, 1⟩) = true) ∧
    (exceptOk (createRecord 100 150 10 0) = false ↔
      ((100:ℚ) ≤ 150 ∨ (10:ℚ) ≤ 0)) := by
  refine ⟨⟨by decide, ?_⟩, c4_creation_validation.2.2 100 150 10 0⟩
  exact c4_creation_validation.1 1200 200 0 3 Frequency.weekly ⟨2024, 3, 1⟩ (by decide)

/-- Counterexample to C4 as stated: a scheduled-mode creation whose down
payment 150 is at or above the principal 100 is claimed to fail, but the
serializer performs no such check and creation succeeds. -/
theorem c4_counterexample :
    (100 : ℚ) ≤ 150 ∧
    exceptOk (createPlan 100 150 0 5 Frequency.monthly ⟨2024, 1, 15⟩) = true := by
  refine ⟨by norm_num, by decide⟩

/-- C5.  The worked scenario: principal 12000, down payment 2000, zero
interest, 10 monthly installments from 2024-01-15 yield an installment
amount of 1000.00, end date 2024-11-15, next due date at the start date and
ten slots of 1000.00 due on the 15th of each month from January through
October 2024, numbered 1 through 10. -/
theorem c5_monthly_scenario :
    (createPlan 12000 2000 0 10 Frequency.monthly ⟨2024, 1, 15⟩).map
      (fun pr => (pr.1.installment_amount, pr.1.end_date, pr.1.next_due_date)) =
      Except.ok (1000, ⟨2024, 11, 15⟩, some ⟨2024, 1, 15⟩) ∧
    (createPlan 12000 2000 0 10 Frequency.monthly ⟨2024, 1, 15⟩).map
      (fun pr => pr.2.map InstallmentPayment.amount) =
      Except.ok (List.replicate 10 1000) ∧
    (createPlan 12000 2000 0 10 Frequency.monthly ⟨2024, 1, 15⟩).map
      (fun pr => pr.2.map InstallmentPayment.due_date) =
      Except.ok [⟨2024, 1, 15⟩, ⟨2024, 2, 15⟩, ⟨2024, 3, 15⟩, ⟨2024, 4, 15⟩,
        ⟨2024, 5, 15⟩, ⟨2024, 6, 15⟩, ⟨2024, 7, 15⟩, ⟨2024, 8, 15⟩,
        ⟨2024, 9, 15⟩, ⟨2024, 10, 15⟩] ∧
    (createPlan 12000 2000 0 10 Frequency.monthly ⟨2024, 1, 15⟩).map
      (fun pr => pr.2.map InstallmentPayment.installment_number) =
      Except.ok [1, 2, 3, 4, 5, 6, 7, 8, 9, 10] := by
  refine ⟨by decide, by decide, by decide, by decide⟩

/-- C6.  On every state a running-balance record can reach (created through
the validated path, then any finite post/delete sequence), the code's status
derivation equals the specification's rule: completed when remaining ≤ 0,
else paused on the explicit flag, else overdue when more than 35 days have
passed since the most recent payment (or the start date when no payment
exists) while remaining > 0, else active. -/
theorem c6_status_derivation (total_cost advance monthly : ℚ) (start : Int)
    (st : RecordState)
    (h : createRecord total_cost advance monthly start = Except.ok st)
    (ops : List RecOp) (today : Int) :
    calculated_status today (runRecord st ops).record (runRecord st ops).payments =
      statusRule today (runRecord st ops).record (runRecord st ops).payments := by
  have hinv := runRecord_invariant ops st
    (createRecord_invariant total_cost advance monthly start st h)
  rcases hinv with ⟨heq, hiff⟩
  apply calculated_status_eq
  constructor
  · intro hc
    rw [hiff.mp hc]
  · intro hle
    apply hiff.mpr
    have h0 : 0 ≤ (runRecord st ops).record.remaining_amount := by
      rw [heq]
      exact le_max_left 0 _
    exact le_antisymm hle h0

/-- Witness for C6: a fresh record with no payments, 40 days after its start
date, is overdue under both the code's derivation and the rule. -/
theorem c6_status_derivation_witness :
    calculated_status 40 (runRecord ⟨c1Rec, []⟩ []).record
        (runRecord ⟨c1Rec, []⟩ []).payments =
      statusRule 40 (runRecord ⟨c1Rec, []⟩ []).record
        (runRecord ⟨c1Rec, []⟩ []).payments ∧
    calculated_status 40 c1Rec [] = RecStatus.overdue := by
  refine ⟨c6_status_derivation 5000 500 1000 0 ⟨c1Rec, []⟩ (by decide) [] 40, by decide⟩

/-- C7.  Recomputation of a running-balance record from its event set is
idempotent, and along every post/delete sequence the stored balance always
equals the floored direct sum over the surviving events (no incremental
drift). -/
theorem c7_recompute_no_drift :
    (∀ (r : InstallmentRecord) (ps : List PaymentRecord),
       updateInstallment (updateInstallment r ps) ps = updateInstallment r ps) ∧
    (∀ (st : RecordState) (ops : List RecOp),
       st.record.remaining_amount =
         max 0 (st.record.total_cost - st.record.advance_payment - sumPaid st.payments) →
       (st.record.is_completed = true ↔ st.record.remaining_amount = 0) →
       (runRecord st ops).record.remaining_amount =
         max 0 ((runRecord st ops).record.total_cost -
           (runRecord st ops).record.advance_payment -
           sumPaid (runRecord st ops).payments)) := by
  constructor
  · exact updateInstallment_idem
  · intro st ops h1 h2
    exact (runRecord_invariant ops st ⟨h1, h2⟩).1

/-- Witness for C7: a post/post/delete run on the fresh 5000/500 record ends
with the balance equal to the direct sum over the surviving events. -/
theorem c7_recompute_no_drift_witness :
    (runRecord ⟨c1Rec, []⟩ [RecOp.post 1500 1 "", RecOp.post 3000 2 "",
        RecOp.del 1]).record.remaining_amount =
      max 0 ((runRecord ⟨c1Rec, []⟩ [RecOp.post 1500 1 "", RecOp.post 3000 2 "",
        RecOp.del 1]).record.total_cost -
        (runRecord ⟨c1Rec, []⟩ [RecOp.post 1500 1 "", RecOp.post 3000 2 "",
          RecOp.del 1]).record.advance_payment -
        sumPaid (runRecord ⟨c1Rec, []⟩ [RecOp.post 1500 1 "", RecOp.post 3000 2 "",
          RecOp.del 1]).payments) := by
  exact c7_recompute_no_drift.2 ⟨c1Rec, []⟩
    [RecOp.post 1500 1 "", RecOp.post 3000 2 "", RecOp.del 1] (by decide) (by decide)

/-- C8.  For every valid scheduled creation input (positive count, down
payment below the principal, non-negative rate), the sum of the generated
slot amounts differs from the stored two-decimal `remaining_amount` by at
most `(N-1)` cents, and the end date is exactly `N` cadence units after the
start date. -/
theorem c8_rounding_drift (t d r : ℚ) (n : Int) (freq : Frequency)
    (start : Date) (hn : 1 ≤ n) (hd : d < t) (hr : 0 ≤ r)
    (p : InstallmentPlan) (slots : List InstallmentPayment)
    (hok : createPlan t d r n freq start = Except.ok (p, slots)) :
    |sumAmounts slots - p.remaining_amount| ≤ ((n : ℚ) - 1) / 100 ∧
    p.end_date = addUnits freq n start := by
  have hn0 : n ≠ 0 := by omega
  simp only [createPlan] at hok
  rw [if_neg hn0] at hok
  injection hok with hok1
  injection hok1 with hp hsl
  subst hp
  subst hsl
  have hpr : 0 < t - d := sub_pos.mpr hd
  have hint : 0 ≤ (t - d) * (r / 100) :=
    mul_nonneg hpr.le (div_nonneg hr (by norm_num))
  have hrem : 0 < (t - d) + (t - d) * (r / 100) := by linarith
  constructor
  · show |sumAmounts (mkSlots _ freq n.toNat 1 start) - roundCents _| ≤ _
    rw [sumAmounts_mkSlots]
    have hcast : ((n.toNat : ℕ) : ℚ) = (n : ℚ) := by
      exact_mod_cast Int.toNat_of_nonneg (by omega : (0:ℤ) ≤ n)
    rw [hcast]
    have hrw : (InstallmentPlan.hookSave
        { total_amount := t
          down_payment := d
          remaining_amount := (t - d) + (t - d) * (r / 100)
          interest_rate := r
          number_of_installments := n
          installment_amount := roundCents (((t - d) + (t - d) * (r / 100)) / (n : ℚ))
          frequency := freq
          start_date := start
          end_date := addUnits freq n start
          next_due_date := some start
          status := PlanStatus.active
          installments_paid := 0 }).remaining_amount =
        (t - d) + (t - d) * (r / 100) := by
      rw [hookSave_remaining]
      exact if_neg (ne_of_gt hrem)
    rw [hrw]
    exact drift_bound ((t - d) + (t - d) * (r / 100)) n hn
  · show (InstallmentPlan.hookSave _).end_date = addUnits freq n start
    rw [hookSave_end_date]

/-- Witness for C8: the worked 12000/2000/0/10 monthly input has zero drift
(well within the 9-cent bound) and lands exactly ten months after the
start. -/
theorem c8_rounding_drift_witness :
    (match createPlan 12000 2000 0 10 Frequency.monthly ⟨2024, 1, 15⟩ with
     | Except.ok (p, slots) =>
       |sumAmounts slots - p.remaining_amount| ≤ ((10 : ℚ) - 1) / 100 ∧
       p.end_date = addUnits Frequency.monthly 10 ⟨2024, 1, 15⟩
     | Except.error _ => False) := by
  have h := c8_rounding_drift 12000 2000 0 10 Frequency.monthly ⟨2024, 1, 15⟩
    (by norm_num) (by norm_num) le_rfl _ _ rfl
  exact h

/-- C9.  A submit or verify request against an already-verified slot fails
with the already-verified error, and any request refused this way leaves
every field of the slot and of its plan unchanged. -/
theorem c9_terminal_slot_errors (st : PlanState) (i : Nat)
    (s : InstallmentPayment) (hs : st.slots[i]? = some s)
    (hv : s.status = SlotStatus.verified)
    (proof method txid snotes : String) (verifier now : Int) (today : Date) :
    submitOp st i proof method txid snotes = Except.error LedgerError.alreadyVerified ∧
    verifyOp st i verifier now today = Except.error LedgerError.alreadyVerified ∧
    (∀ op : SlotOp, slotStep i st op = st) := by
  refine ⟨?_, ?_, fun op => slotStep_verified_fixed i st s hs hv op⟩
  · simp [submitOp, hs, hv]
  · simp [verifyOp, hs, hv]

/-- Witness for C9: both requests against the verified slot of `c9St` fail
with the already-verified error. -/
theorem c9_terminal_slot_errors_witness :
    submitOp c9St 0 "img" "cash" "t1" "" = Except.error LedgerError.alreadyVerified ∧
    verifyOp c9St 0 7 5 ⟨2024, 2, 1⟩ = Except.error LedgerError.alreadyVerified := by
  have h := c9_terminal_slot_errors c9St 0
    ({ baseSlot 1 50 ⟨2024, 1, 15⟩ with status := SlotStatus.verified })
    rfl rfl "img" "cash" "t1" "" 7 5 ⟨2024, 2, 1⟩
  exact ⟨h.1, h.2.1⟩

/-- C10.  Saving a plan whose balance is exactly zero recomputes the balance
as `total_amount - down_payment` (zero is treated as unset by the save
hook); consequently the verification that brings the balance exactly to
zero ends with status `completed` but the balance restored to
`total_amount - down_payment` instead of zero. -/
theorem c10_zero_balance_reset :
    (∀ p : InstallmentPlan, p.remaining_amount = 0 →
       p.hookSave.remaining_amount = p.total_amount - p.down_payment) ∧
    (∀ (st : PlanState) (i : Nat) (s : InstallmentPayment) (verifier now : Int)
       (today : Date) (st' : PlanState),
       st.slots[i]? = some s → s.status ≠ SlotStatus.verified →
       s.amount = st.plan.remaining_amount →
       verifyOp st i verifier now today = Except.ok st' →
       st'.plan.status = PlanStatus.completed ∧
       st'.plan.remaining_amount = st.plan.total_amount - st.plan.down_payment) := by
  constructor
  · intro p h
    rw [hookSave_remaining, if_pos h]
  · intro st i s verifier now today st' hs hnv hamt hok
    simp only [verifyOp, hs] at hok
    rw [if_neg hnv, Except.ok.injEq] at hok
    subst hok
    constructor
    · show ((InstallmentPlan.update_status today _)).status = PlanStatus.completed
      apply update_status_completed
      show st.plan.remaining_amount - s.amount ≤ 0
      rw [hamt]
      simp
    · rw [verify_payment_remaining]
      rw [if_pos (by rw [hamt]; ring)]

/-- Witness for C10: the zero-remaining copy of the 100 plan is reset to 100
on save, and verifying the single 50 slot of the 50 plan completes it with
the balance reset to 50 instead of zero. -/
theorem c10_zero_balance_reset_witness :
    ({ basePlan 100 0 100 2 with remaining_amount := 0 } :
      InstallmentPlan).hookSave.remaining_amount = 100 ∧
    (match verifyOp cex2St 0 7 0 ⟨2024, 1, 20⟩ with
     | Except.ok st' =>
       st'.plan.status = PlanStatus.completed ∧ st'.plan.remaining_amount = 50
     | Except.error _ => False) := by
  constructor
  · have h := c10_zero_balance_reset.1
      ({ basePlan 100 0 100 2 with remaining_amount := 0 }) rfl
    rw [h]
    decide
  · have h := c10_zero_balance_reset.2 cex2St 0 (baseSlot 1 50 ⟨2024, 1, 15⟩)
      7 0 ⟨2024, 1, 20⟩
      (verify_payment cex2St 0 (baseSlot 1 50 ⟨2024, 1, 15⟩) 7 0 ⟨2024, 1, 20⟩)
      rfl (by decide) rfl rfl
    show (verify_payment cex2St 0 (baseSlot 1 50 ⟨2024, 1, 15⟩) 7 0
        ⟨2024, 1, 20⟩).plan.status = PlanStatus.completed ∧
      (verify_payment cex2St 0 (baseSlot 1 50 ⟨2024, 1, 15⟩) 7 0
        ⟨2024, 1, 20⟩).plan.remaining_amount = 50
    exact h

end PayTrack
